import Mathlib

/-!
Shallow embedding of the `js-common-geometry` library (files `src/Config.js`,
`src/Utils.js`, `src/Point.js`, `src/Line.js`, `src/LineSegment.js`,
`src/Triangle.js`, `src/Rectangle.js`, `src/Polygon.js`).

JavaScript `number` values are modelled as exact rationals (`ℚ`); the
library's own tolerance machinery (`Config.EPS` and the comparison helpers
of `Utils.js`) is embedded verbatim on top of that.  The global
configuration is fixed at its defaults (`EPS = 1e-8`,
`NEGATIVE_INF = -1e20`, `Y_AXIS_DIRECTION = 'up'`), exactly as shipped in
`Config.js`.  Fallible constructors (which `throw` in JavaScript) are
embedded as `Option`-returning smart constructors.  String-valued relation
results are kept as strings, as in the source.
-/

-- Batteries marks the arithmetic on `Rat` irreducible, which blocks `decide`
-- on concrete rational computations; the theorems below that evaluate the
-- embedded code on concrete inputs therefore `unseal` those operations.

namespace JsGeom

/-- `Config.EPS` (Config.js): comparison precision, default `1e-8`. -/
def EPS : ℚ := 1 / 100000000

/-- `Config.NEGATIVE_INF` (Config.js): finite stand-in for `-∞`, `-1e20`. -/
def NEGATIVE_INF : ℚ := -(100000000000000000000 : ℚ)

/-- `Utils.eq`: `|x - y| <= EPS`. -/
def qeq (x y : ℚ) : Bool := |x - y| ≤ EPS

/-- `Utils.neq`: `|x - y| > EPS`. -/
def qneq (x y : ℚ) : Bool := |x - y| > EPS

/-- `Utils.lt`: `x < y + EPS` (note: true for equal arguments). -/
def qlt (x y : ℚ) : Bool := x < y + EPS

/-- `Utils.leq`: `x <= y + EPS`. -/
def qleq (x y : ℚ) : Bool := x ≤ y + EPS

/-- `Utils.gt`: `x + EPS > y` (note: true for equal arguments). -/
def qgt (x y : ℚ) : Bool := x + EPS > y

/-- `Utils.geq`: `x + EPS >= y`. -/
def qgeq (x y : ℚ) : Bool := x + EPS ≥ y

/-- `Utils.isZero`: `|x| <= EPS`. -/
def isZero (x : ℚ) : Bool := |x| ≤ EPS

/-- `Utils.isNonZero`: `|x| > EPS`. -/
def isNonZero (x : ℚ) : Bool := |x| > EPS

/-- `Utils.isPositive`: `x > EPS`. -/
def isPositive (x : ℚ) : Bool := x > EPS

/-- `Utils.isNegative`: `x < -EPS`. -/
def isNegative (x : ℚ) : Bool := x < -EPS

/-- `Utils.isNonPositive`: `x <= EPS`. -/
def isNonPositive (x : ℚ) : Bool := x ≤ EPS

/-- `Utils.sign`: `0` when `isZero x`, else the sign of `x`. -/
def qsign (x : ℚ) : Int := if isZero x then 0 else if x < 0 then -1 else 1

/-- `Point` (Point.js): an immutable 2-D point / vector. -/
structure Point where
  x : ℚ
  y : ℚ
deriving DecidableEq, Repr

instance : Inhabited Point := ⟨⟨0, 0⟩⟩

namespace Point

/-- `Point.add` (Point.js line 56): componentwise addition. -/
def add (p off : Point) : Point := ⟨p.x + off.x, p.y + off.y⟩

/-- `Point.subtract` (Point.js line 71): componentwise subtraction. -/
def subtract (p off : Point) : Point := ⟨p.x - off.x, p.y - off.y⟩

/-- `Point.cross` (Point.js line 84): `x·p.y − y·p.x`. -/
def cross (a p : Point) : ℚ := a.x * p.y - a.y * p.x

/-- `Point.dot` (Point.js line 97). -/
def dot (a p : Point) : ℚ := a.x * p.x + a.y * p.y

/-- `Point.times` (Point.js line 185): `(p1 − p0) × (p2 − p0)` where `p0` is
the receiver. -/
def times (p0 p1 p2 : Point) : ℚ :=
  (p1.x - p0.x) * (p2.y - p0.y) - (p1.y - p0.y) * (p2.x - p0.x)

/-- `Point.equals` (Point.js line 197): componentwise epsilon equality. -/
def equals (p q : Point) : Bool := qeq p.x q.x && qeq p.y q.y

/-- `Point.compareTo` (Point.js line 214): lexicographic epsilon-aware
comparison, `x` first. -/
def compareTo (p q : Point) : Int :=
  if ¬ (qeq p.x q.x) then (if p.x < q.x then -1 else 1)
  else if ¬ (qeq p.y q.y) then (if p.y < q.y then -1 else 1)
  else 0

end Point

/-- `Line` (Line.js): an infinite line given by two distinct points. -/
structure Line where
  start : Point
  end_ : Point
deriving DecidableEq, Repr

/-- `LineSegment` (LineSegment.js): a finite directed segment. -/
structure LineSegment where
  start : Point
  end_ : Point
deriving DecidableEq, Repr

/-- `Line`'s constructor (Line.js line 269): throws when the two defining
points are epsilon-equal; embedded as `none`. -/
def Line.mk? (s e : Point) : Option Line :=
  if s.equals e then none else some ⟨s, e⟩

/-- `LineSegment`'s constructor (LineSegment.js line 44): throws when the two
endpoints are epsilon-equal; embedded as `none`. -/
def LineSegment.mk? (s e : Point) : Option LineSegment :=
  if s.equals e then none else some ⟨s, e⟩

/-- `LineSegment.line()` (LineSegment.js line 59): the underlying line. -/
def LineSegment.line (s : LineSegment) : Line := ⟨s.start, s.end_⟩

namespace Point

/-- `Point.isOnLine` (Point.js line 289): the cross product of the line's
direction with the offset of the point is epsilon-zero. -/
def isOnLine (p : Point) (l : Line) : Bool :=
  let u := l.end_.subtract l.start
  let v := p.subtract l.start
  isZero (u.cross v)

/-- `Point.isOnLineSegment` (Point.js line 304): epsilon-zero cross product
plus the sign bounding conditions. -/
def isOnLineSegment (p : Point) (l : LineSegment) : Bool :=
  let u := l.end_.subtract l.start
  let v := p.subtract l.start
  let w := p.subtract l.end_
  isZero (u.cross v)
    && (qsign v.x * qsign w.x ≤ 0)
    && (qsign v.y * qsign w.y ≤ 0)

/-- `Point.relationToLine` (Point.js line 326): `'on'`, `'left'` or
`'right'`. -/
def relationToLine (p : Point) (l : Line) : String :=
  let u := l.end_.subtract l.start
  let v := p.subtract l.start
  let r := u.cross v
  if isZero r then "on" else if r > 0 then "left" else "right"

end Point

namespace LineSegment

/-- `LineSegment.equals` (LineSegment.js line 311). -/
def equals (s other : LineSegment) : Bool :=
  s.start.equals other.start && s.end_.equals other.end_

/-- `LineSegment.isParallelWith` (LineSegment.js line 384). -/
def isParallelWith (s other : LineSegment) : Bool :=
  let u := s.end_.subtract s.start
  let v := other.end_.subtract other.start
  isZero (u.cross v)

/-- `LineSegment.intersectsWith` (LineSegment.js line 427): epsilon-relaxed
bounding-box rejection followed by the two `times` sign products. -/
def intersectsWith (s other : LineSegment) : Bool :=
  qgeq (max s.start.x s.end_.x) (min other.start.x other.end_.x)
    && qleq (min s.start.x s.end_.x) (max other.start.x other.end_.x)
    && qgeq (max s.start.y s.end_.y) (min other.start.y other.end_.y)
    && qleq (min s.start.y s.end_.y) (max other.start.y other.end_.y)
    && isNonPositive (s.start.times other.start s.end_
                        * s.start.times other.end_ s.end_)
    && isNonPositive (other.start.times s.start other.end_
                        * other.start.times s.end_ other.end_)

/-- `LineSegment.relationTo` (LineSegment.js line 352): `'equal'`,
`'collinear'`, `'parallel'`, `'intersect'` or `'disjoint'`. -/
def relationTo (s other : LineSegment) : String :=
  if s.equals other then "equal"
  else if s.isParallelWith other then
    (if s.start.isOnLine other.line then "collinear" else "parallel")
  else if s.intersectsWith other then "intersect"
  else "disjoint"

end LineSegment

/-- The coefficient `a1` of `Line.intersectionPointWith` (Line.js line 585):
the implicit equation of the line through `start` and `end` is
`coeffA·x + coeffB·y + coeffC = 0`. -/
def Line.coeffA (l : Line) : ℚ := l.end_.y - l.start.y

/-- The coefficient `b1` of `Line.intersectionPointWith` (Line.js line 586). -/
def Line.coeffB (l : Line) : ℚ := l.start.x - l.end_.x

/-- The coefficient `c1` of `Line.intersectionPointWith` (Line.js line 587). -/
def Line.coeffC (l : Line) : ℚ := l.end_.x * l.start.y - l.start.x * l.end_.y

/-- `Line.intersectionPointWith` (Line.js line 584): solve the two implicit
equations by the 2×2 determinant; `'collinear'`/`'parallel'` when the
determinant is epsilon-zero. -/
def Line.intersectionPointWith (l1 l2 : Line) : Point ⊕ String :=
  let a1 := l1.coeffA
  let b1 := l1.coeffB
  let c1 := l1.coeffC
  let a2 := l2.coeffA
  let b2 := l2.coeffB
  let c2 := l2.coeffC
  let r1 := a1 * b2
  let r2 := a2 * b1
  if qeq r1 r2 then
    if qeq (a1 * c2) (a2 * c1) && qeq (b1 * c2) (b2 * c1) then Sum.inr "collinear"
    else Sum.inr "parallel"
  else
    let r := r1 - r2
    Sum.inl ⟨(b1 * c2 - b2 * c1) / r, (a2 * c1 - a1 * c2) / r⟩

/-- `[p1, p2].sort((a, b) => a.compareTo(b))` on a two-element array, as used
by `LineSegment.intersectionPointWith`. -/
def sortPair (a b : Point) : Point × Point :=
  if a.compareTo b > 0 then (b, a) else (a, b)

/-- `LineSegment.containsPoint` (LineSegment.js line 294). -/
def LineSegment.containsPoint (s : LineSegment) (p : Point) : Bool :=
  p.isOnLineSegment s

/-- The dispatch on the line-level result inside
`LineSegment.intersectionPointWith` (LineSegment.js lines 452-482): a point
is validated for containment in both segments; `'collinear'` triggers the
sorted-endpoint overlap analysis (the line level only ever produces the
strings `'parallel'` and `'collinear'`). -/
def intersectionPointWithAux (s other : LineSegment) :
    Point ⊕ String → Point ⊕ String
  | Sum.inr str =>
    if str = "parallel" then Sum.inr "parallel"
    else
      let tp := sortPair s.start s.end_
      let op := sortPair other.start other.end_
      let r1 := tp.2.compareTo op.1
      let r2 := op.2.compareTo tp.1
      if r1 < 0 || r2 < 0 then Sum.inr "disjoint"
      else if r1 = 0 then Sum.inl tp.2
      else if r2 = 0 then Sum.inl op.2
      else Sum.inr "collinear"
  | Sum.inl r =>
    if s.containsPoint r && other.containsPoint r then Sum.inl r
    else Sum.inr "disjoint"

/-- `LineSegment.intersectionPointWith` (LineSegment.js line 451): delegate
to the line intersection, then dispatch on its result. -/
def LineSegment.intersectionPointWith (s other : LineSegment) : Point ⊕ String :=
  intersectionPointWithAux s other (s.line.intersectionPointWith other.line)

/-- `Utils.isClockwise`: orientation of the first three vertexes. -/
def isClockwise (vs : List Point) : Bool :=
  match vs with
  | v0 :: v1 :: v2 :: _ =>
    let u := v0.subtract v1
    let v := v2.subtract v1
    isNegative (u.cross v)
  | _ => false

/-- `Utils.makeClockwise`: reverse the list when not already clockwise. -/
def makeClockwise (vs : List Point) : List Point :=
  if isClockwise vs then vs else vs.reverse

/-- `Utils.findTopLeftIndex`, in the default configuration
`Config.Y_AXIS_DIRECTION === 'up'`: sequential scan keeping the candidate
satisfying `gt(v.y, topLeft.y) || (eq(v.y, topLeft.y) && lt(v.x, topLeft.x))`. -/
def findTopLeftIndex (vs : List Point) : Nat :=
  (((vs.enum).drop 1).foldl
    (fun acc iv =>
      if qgt iv.2.y acc.2.y || (qeq iv.2.y acc.2.y && qlt iv.2.x acc.2.x)
      then iv else acc)
    (0, vs.headD default)).1

/-- `Utils.normalize`: make the list clockwise, then rotate it so the
top-left vertex comes first. -/
def normalize (vs : List Point) : List Point :=
  let v := makeClockwise vs
  let t := findTopLeftIndex v
  let n := v.length
  (List.range n).map (fun i => v.getD ((t + i) % n) default)

/-- The result record of `Utils.calculateBoundaries`. -/
structure Boundary where
  left : ℚ
  right : ℚ
  top : ℚ
  bottom : ℚ
deriving DecidableEq, Repr

/-- `Utils.calculateBoundaries` in the default configuration
`Config.Y_AXIS_DIRECTION === 'up'`.  The JavaScript folds min/max starting
from `±Infinity`; on the non-empty vertex lists of constructed shapes this
equals folding from the first vertex, which is how it is embedded here. -/
def calculateBoundaries (vs : List Point) : Boundary :=
  let h := vs.headD default
  { left := vs.foldl (fun a p => min a p.x) h.x
    right := vs.foldl (fun a p => max a p.x) h.x
    top := vs.foldl (fun a p => max a p.y) h.y
    bottom := vs.foldl (fun a p => min a p.y) h.y }

/-- `Utils.modulo`: `((x % n) + n) % n`, with the JavaScript `%` being the
truncated remainder (`Int.tmod`). -/
def modulo (x n : Int) : Int := Int.tmod (Int.tmod x n + n) n

instance : Inhabited LineSegment := ⟨⟨default, default⟩⟩

instance : Inhabited Line := ⟨⟨default, default⟩⟩

/-- `Polygon` (Polygon.js): a simple polygon as its stored vertex list. -/
structure Polygon where
  vertexes : List Point
deriving DecidableEq, Repr

namespace Polygon

/-- `Polygon.isValid` (Polygon.js line 32): at least 3 vertexes, and for
`i = 1 .. n-1` the triple `(v[i-1], v[i], v[(i+1) % n])` is not collinear. -/
def isValid (vs : List Point) : Bool :=
  if vs.length < 3 then false
  else (List.range (vs.length - 1)).all fun k =>
    let v0 := vs.getD k default
    let v1 := vs.getD (k + 1) default
    let v2 := vs.getD ((k + 2) % vs.length) default
    !(isZero (v1.times v0 v2))

/-- `Polygon`'s constructor (Polygon.js line 82) with `normalized = false`:
throws (here `none`) unless `isValid`, then stores the normalized list. -/
def mk? (vs : List Point) : Option Polygon :=
  if isValid vs then some ⟨normalize vs⟩ else none

/-- `Polygon.size` (Polygon.js line 102). -/
def size (P : Polygon) : Nat := P.vertexes.length

/-- `Polygon.sides` (Polygon.js line 122): segment `i` joins vertex `i` to
vertex `(i+1) % n`, built through the `LineSegment` constructor, which
throws when the two endpoints are epsilon-equal (`none` when any side
constructor throws). -/
def sides (P : Polygon) : Option (List LineSegment) :=
  let n := P.vertexes.length
  P.vertexes.enum.mapM
    (fun iv => LineSegment.mk? iv.2 (P.vertexes.getD ((iv.1 + 1) % n) default))

/-- `Polygon.vertex` (Polygon.js line 154): modulo-indexed vertex access. -/
def vertex (P : Polygon) (i : Int) : Point :=
  P.vertexes.getD (modulo i P.vertexes.length).toNat default

/-- `Polygon.side` (Polygon.js line 169): modulo-indexed side access through
the `LineSegment` constructor, which throws (`none`) when the two adjacent
vertexes are epsilon-equal. -/
def side (P : Polygon) (i : Int) : Option LineSegment :=
  LineSegment.mk? (P.vertexes.getD (modulo i P.vertexes.length).toNat default)
    (P.vertexes.getD (modulo (i + 1) P.vertexes.length).toNat default)

end Polygon

/-- The horizontal ray of `Point.relationToPolygon` (Point.js line 652): from
the probe point to `(Config.NEGATIVE_INF, this.y)`. -/
def horizontalRay (p : Point) : LineSegment := ⟨p, ⟨NEGATIVE_INF, p.y⟩⟩

/-- The side loop of `Point.relationToPolygon` (Point.js lines 658-678),
with the crossing counter `c` threaded explicitly. -/
def relationToPolygonLoop (p : Point) (ray : LineSegment) :
    List LineSegment → Nat → String
  | [], c => if c % 2 = 1 then "inside" else "outside"
  | s :: rest, c =>
    if p.isOnLineSegment s then "on"
    else if qeq s.start.y s.end_.y then relationToPolygonLoop p ray rest c
    else if s.start.isOnLineSegment ray then
      (if s.start.y > s.end_.y then relationToPolygonLoop p ray rest (c + 1)
       else relationToPolygonLoop p ray rest c)
    else if s.end_.isOnLineSegment ray then
      (if s.end_.y > s.start.y then relationToPolygonLoop p ray rest (c + 1)
       else relationToPolygonLoop p ray rest c)
    else if s.intersectsWith ray then relationToPolygonLoop p ray rest (c + 1)
    else relationToPolygonLoop p ray rest c

/-- `Point.relationToPolygon` (Point.js line 648): horizontal ray casting
with parity counting.  The source calls `polygon.sides()` before the loop
(Point.js line 656); when a side constructor throws, the exception
propagates out of `relationToPolygon` (`none`). -/
def Point.relationToPolygon (p : Point) (poly : Polygon) : Option String :=
  match poly.sides with
  | none => none
  | some ss => some (relationToPolygonLoop p (horizontalRay p) ss 0)

/-- `Triangle` (Triangle.js): stored (normalized) vertex list. -/
structure Triangle where
  vertexes : List Point
deriving DecidableEq, Repr

namespace Triangle

/-- `Triangle.isValid` (Triangle.js line 31): exactly 3 vertexes, not
collinear. -/
def isValid (vs : List Point) : Bool :=
  vs.length = 3
    && isNonZero ((vs.getD 1 default).times (vs.getD 0 default) (vs.getD 2 default))

/-- `Triangle`'s constructor (Triangle.js line 88) with `normalized = false`:
throws (here `none`) unless `isValid`, then stores the normalized list. -/
def mk? (vs : List Point) : Option Triangle :=
  if isValid vs then some ⟨normalize vs⟩ else none

/-- Vertex `a` (Triangle.js line 97). -/
def a (t : Triangle) : Point := t.vertexes.getD 0 default

/-- Vertex `b` (Triangle.js line 98). -/
def b (t : Triangle) : Point := t.vertexes.getD 1 default

/-- Vertex `c` (Triangle.js line 99). -/
def c (t : Triangle) : Point := t.vertexes.getD 2 default

/-- `Triangle.sides` (Triangle.js line 121): the three sides built through
the `LineSegment` constructor, which throws (`none`) when a pair of
adjacent vertexes is epsilon-equal. -/
def sides (t : Triangle) : Option (List LineSegment) := do
  let s1 ← LineSegment.mk? t.a t.b
  let s2 ← LineSegment.mk? t.b t.c
  let s3 ← LineSegment.mk? t.c t.a
  pure [s1, s2, s3]

/-- `Triangle.center` (Triangle.js line 325): arithmetic mean of the three
vertexes. -/
def center (t : Triangle) : Point :=
  ⟨(t.a.x + t.b.x + t.c.x) / 3, (t.a.y + t.b.y + t.c.y) / 3⟩

/-- `Triangle.vertex` (Triangle.js line 152): modulo-3 indexed access. -/
def vertex (t : Triangle) (i : Int) : Point :=
  t.vertexes.getD (modulo i 3).toNat default

/-- `Triangle.side` (Triangle.js line 165): modulo-3 indexed access through
the `LineSegment` constructor, which throws (`none`) when the two adjacent
vertexes are epsilon-equal. -/
def side (t : Triangle) (i : Int) : Option LineSegment :=
  LineSegment.mk? (t.vertexes.getD (modulo i 3).toNat default)
    (t.vertexes.getD (modulo (i + 1) 3).toNat default)

end Triangle

/-- The shared side loop of `Point.relationToTriangle` (Point.js lines
408-414) and `Point.relationToConvex` (Point.js lines 585-592): `'on'` when
the probe lies on the side segment, `'outside'` at the first side whose
side-of-line relation differs from the reference relation `ref s`,
`'inside'` when the loop finishes.  (In the source the per-side line test is
invoked directly on the `LineSegment`, which only reads its `start`/`end`;
here this is written `s.line`.) -/
def sideRelationLoop (p : Point) (ref : LineSegment → String) :
    List LineSegment → String
  | [] => "inside"
  | s :: rest =>
    if p.isOnLineSegment s then "on"
    else if p.relationToLine s.line ≠ ref s then "outside"
    else sideRelationLoop p ref rest

/-- `Point.relationToTriangle` (Point.js line 404): reference relation is the
triangle center's relation to side 0, fixed for the whole loop.  The source
calls `triangle.sides()` up front (Point.js line 406); when a side
constructor throws, the exception propagates out (`none`). -/
def Point.relationToTriangle (p : Point) (t : Triangle) : Option String :=
  t.sides.map (fun ss =>
    sideRelationLoop p
      (fun _ => t.center.relationToLine (ss.headD default).line) ss)

/-- The reference point `q` of `Point.relationToConvex` (Point.js lines
575-584): the arithmetic mean of the polygon's vertexes. -/
def vertexMean (convex : Polygon) : Point :=
  ⟨(convex.vertexes.foldl (fun acc v => acc + v.x) 0) / (convex.size : ℚ),
   (convex.vertexes.foldl (fun acc v => acc + v.y) 0) / (convex.size : ℚ)⟩

/-- `Point.relationToConvex` (Point.js line 569): throws for fewer than 3
vertexes (here `none`); otherwise calls `convex.sides()` (Point.js line
583), whose constructors may throw (`none` again), and then compares the
probe's side-of-line relation against that of the arithmetic mean of the
vertexes, side by side. -/
def Point.relationToConvex (p : Point) (convex : Polygon) : Option String :=
  if convex.size < 3 then none
  else
    match convex.sides with
    | none => none
    | some ss =>
      some (sideRelationLoop p
        (fun s => (vertexMean convex).relationToLine s.line) ss)

/-- `Rectangle` (Rectangle.js): stored (normalized) vertex list. -/
structure Rectangle where
  vertexes : List Point
deriving DecidableEq, Repr

namespace Rectangle

/-- `this.left` as computed by the constructor (Rectangle.js line 97). -/
def left (r : Rectangle) : ℚ := (calculateBoundaries r.vertexes).left

/-- `this.right` (Rectangle.js line 98). -/
def right (r : Rectangle) : ℚ := (calculateBoundaries r.vertexes).right

/-- `this.top` (Rectangle.js line 99). -/
def top (r : Rectangle) : ℚ := (calculateBoundaries r.vertexes).top

/-- `this.bottom` (Rectangle.js line 100). -/
def bottom (r : Rectangle) : ℚ := (calculateBoundaries r.vertexes).bottom

/-- `Rectangle.sides` (Rectangle.js line 226): side `i` joins vertex `i` to
vertex `(i+1) % 4`, built through the `Line` constructor, which throws
(`none`) when the two endpoints are epsilon-equal. -/
def sides (r : Rectangle) : Option (List Line) :=
  r.vertexes.enum.mapM
    (fun iv => Line.mk? iv.2 (r.vertexes.getD ((iv.1 + 1) % 4) default))

/-- `Rectangle.isParallelToAxis` (Rectangle.js line 447). -/
def isParallelToAxis (r : Rectangle) : Bool :=
  qeq (r.vertexes.getD 0 default).x r.left
    && qeq (r.vertexes.getD 0 default).y r.top

/-- `Rectangle.equals` (Rectangle.js line 569). -/
def equals (r other : Rectangle) : Bool :=
  (List.range 4).all fun i =>
    (r.vertexes.getD i default).equals (other.vertexes.getD i default)

/-- `Rectangle.isInsideRectangle` (Rectangle.js line 470), in the default
configuration `Config.Y_AXIS_DIRECTION === 'up'`.  The non-axis-parallel
branch calls `other.sides()` (Rectangle.js line 484), whose `Line`
constructors may throw; the exception propagates out (`none`). -/
def isInsideRectangle (r other : Rectangle) : Option Bool :=
  if r.isParallelToAxis && other.isParallelToAxis then
    some (qgeq r.left other.left
      && qleq r.right other.right
      && qleq r.top other.top
      && qgeq r.bottom other.bottom)
  else
    match other.sides with
    | none => none
    | some otherSides =>
      some ((List.range 4).all fun i =>
        let p := r.vertexes.getD i default
        (List.range 4).all fun j =>
          let s := otherSides.getD j default
          let u := s.end_.subtract s.start
          let v := p.subtract s.start
          !(isPositive (u.cross v)))

end Rectangle

/-- The side loop of the non-axis-parallel branch of
`Point.relationToRectangle` (Point.js lines 491-509); the sides of a
rectangle are `Line` objects, of which only `start`/`end` are read. -/
def rectSideLoop (p : Point) : List Line → String
  | [] => "inside"
  | s :: rest =>
    let u := s.end_.subtract s.start
    let v := p.subtract s.start
    let w := p.subtract s.end_
    let r := u.cross v
    if isZero r then
      (if qsign v.x * qsign w.x ≤ 0 && qsign v.y * qsign w.y ≤ 0
       then "on" else "outside")
    else if r > 0 then "outside"
    else rectSideLoop p rest

/-- `Point.relationToRectangle` (Point.js line 472): fuzzy bounding-box test
with boundary-coordinate equality in the axis-parallel fast path; per-side
orientation loop otherwise.  The non-axis-parallel branch first calls
`rectangle.sides()` (Point.js line 490), whose `Line` constructors may
throw; the exception propagates out (`none`). -/
def Point.relationToRectangle (p : Point) (r : Rectangle) : Option String :=
  if r.isParallelToAxis then
    some (if qgeq p.x r.left && qleq p.x r.right
        && qgeq p.y (min r.bottom r.top) && qleq p.y (max r.bottom r.top) then
      (if qeq p.x r.left || qeq p.x r.right || qeq p.y r.top || qeq p.y r.bottom
       then "on" else "inside")
    else "outside")
  else r.sides.map (fun ss => rectSideLoop p ss)

/-- `Point.isOnRectangle` (Point.js line 441): `relationToRectangle(...) ===
'on'`; an exception from `relationToRectangle` propagates (`none`). -/
def Point.isOnRectangle (p : Point) (r : Rectangle) : Option Bool :=
  match p.relationToRectangle r with
  | none => none
  | some s => some (s = "on")

/-- The short-circuiting `this.vertexes.some((v) => v.isOnRectangle(other))`
of `Rectangle.relationToRectangle` (Rectangle.js lines 541, 547): stops at
the first vertex answering `true`; an exception from a probe propagates
(`none`). -/
def anyIsOnRectangle : List Point → Rectangle → Option Bool
  | [], _ => some false
  | v :: rest, R =>
    match v.isOnRectangle R with
    | none => none
    | some true => some true
    | some false => anyIsOnRectangle rest R

/-- `Rectangle.relationToRectangle` (Rectangle.js line 537).  After the
`same` / inside / include cases the source reaches a literal `// TODO` and
falls through without a `return` statement (the JavaScript function then
yields `undefined`); this fall-through is embedded as `some none`, while an
exception thrown by a nested `sides()` call is the outer `none`. -/
def Rectangle.relationToRectangle (r other : Rectangle) : Option (Option String) :=
  if r.equals other then some (some "same")
  else
    match r.isInsideRectangle other with
    | none => none
    | some true =>
      (match anyIsOnRectangle r.vertexes other with
       | none => none
       | some true => some (some "inside_adjacently")
       | some false => some (some "inside_exactly"))
    | some false =>
      match other.isInsideRectangle r with
      | none => none
      | some true =>
        (match anyIsOnRectangle other.vertexes r with
         | none => none
         | some true => some (some "include_adjacently")
         | some false => some (some "include_exactly"))
      | some false => some none

/-- `Point.distanceTo` (Point.js line 234), valued in `ℝ` because of the
square root. -/
noncomputable def Point.distanceTo (p other : Point) : ℝ :=
  Real.sqrt (((p.x - other.x : ℚ) : ℝ) ^ 2 + ((p.y - other.y : ℚ) : ℝ) ^ 2)

/-- `Utils.eq` applied to real-valued lengths, as `Rectangle.isValid` does. -/
def eqR (x y : ℝ) : Prop := |x - y| ≤ (EPS : ℚ)

/-- `Rectangle.isValid` (Rectangle.js line 32): four vertexes, two adjacent
corner pairs distinct, opposite sides of equal length and equal diagonals
(all length comparisons through `Utils.eq` on real square roots). -/
def Rectangle.isValidPoints (vs : List Point) : Prop :=
  vs.length = 4
    ∧ (vs.getD 0 default).equals (vs.getD 1 default) = false
    ∧ (vs.getD 1 default).equals (vs.getD 2 default) = false
    ∧ eqR ((vs.getD 0 default).distanceTo (vs.getD 1 default))
          ((vs.getD 2 default).distanceTo (vs.getD 3 default))
    ∧ eqR ((vs.getD 1 default).distanceTo (vs.getD 2 default))
          ((vs.getD 3 default).distanceTo (vs.getD 0 default))
    ∧ eqR ((vs.getD 0 default).distanceTo (vs.getD 2 default))
          ((vs.getD 1 default).distanceTo (vs.getD 3 default))

/-! ### Helper lemmas -/

/-- `Int.tmod` negates with its dividend. -/
theorem neg_tmod_eq (a b : ℤ) : (-a).tmod b = -(a.tmod b) := by
  rw [Int.tmod_def, Int.tmod_def, Int.neg_tdiv]; ring

/-- `modulo` lands in `[0, n)` whenever the divisor is positive. -/
theorem modulo_nonneg_lt (i n : ℤ) (hn : 0 < n) :
    0 ≤ modulo i n ∧ modulo i n < n := by
  have hneg : (-i).tmod n = -(i.tmod n) := neg_tmod_eq i n
  have h1 : i.tmod n < n := Int.tmod_lt_of_pos i hn
  have h2 : -n < i.tmod n := by
    rcases le_or_lt 0 i with h | h
    · have := Int.tmod_nonneg n h; omega
    · have := Int.tmod_lt_of_pos (-i) hn; omega
  have h3 : 0 ≤ i.tmod n + n := by omega
  exact ⟨Int.tmod_nonneg n h3, Int.tmod_lt_of_pos _ hn⟩

/-- A `getD` access at an in-range index yields a member of the list. -/
theorem getD_mem_of_lt {α : Type} [Inhabited α] (l : List α) (k : ℕ)
    (h : k < l.length) : l.getD k default ∈ l := by
  rw [List.getD_eq_getElem l default h]
  exact List.getElem_mem h

/-! ### Claim theorems -/

/-- The vertex `getD` access underlying `Polygon.side`/`Triangle.side` at an
integer index, after the `modulo` reduction. -/
def moduloVertex (vs : List Point) (i : Int) : Point :=
  vs.getD (modulo i vs.length).toNat default

/-- A `side` access is the `LineSegment` constructor applied to the two
`modulo`-reduced vertex accesses. -/
theorem polygon_side_eq_mk (P : Polygon) (i : ℤ) :
    P.side i = LineSegment.mk? (moduloVertex P.vertexes i)
      (moduloVertex P.vertexes (i + 1)) := rfl

/-- The triangle variant of `polygon_side_eq_mk`. -/
theorem triangle_side_eq_mk (t : Triangle) (i : ℤ) (ht : t.vertexes.length = 3) :
    t.side i = LineSegment.mk? (moduloVertex t.vertexes i)
      (moduloVertex t.vertexes (i + 1)) := by
  simp [Triangle.side, moduloVertex, ht]

/-- The `LineSegment` constructor succeeds exactly on non-epsilon-equal
endpoints, and then returns the segment joining them. -/
theorem lineSegment_mk_cases (u v : Point) :
    (LineSegment.mk? u v = none ↔ u.equals v = true)
    ∧ ∀ s, LineSegment.mk? u v = some s → s = ⟨u, v⟩ := by
  constructor
  · cases h : u.equals v <;> simp [LineSegment.mk?, h]
  · intro s hs
    cases h : u.equals v <;> simp [LineSegment.mk?, h] at hs
    exact hs.symm

/-- **C10 (amended).**  For every integer `i` (including negative values)
and every shape with `n` vertexes, `modulo i n` lies in `[0, n)`, so the
modulo-indexed accessors `vertex`/`side` of `Polygon` and `Triangle` never
access the vertex list out of bounds: `vertex i` always returns a stored
vertex, and `side i` reads the two stored vertexes at the reduced indexes
`modulo i n` and `modulo (i+1) n` and hands them to the `LineSegment`
constructor, which returns the segment joining them when they are not
epsilon-equal and throws (`none`) when they are. -/
theorem C10_modulo_indexed_accessors :
    (∀ (i n : ℤ), 0 < n → 0 ≤ modulo i n ∧ modulo i n < n)
    ∧ (∀ (P : Polygon) (i : ℤ), 3 ≤ P.vertexes.length →
        P.vertex i ∈ P.vertexes
          ∧ moduloVertex P.vertexes i ∈ P.vertexes
          ∧ moduloVertex P.vertexes (i + 1) ∈ P.vertexes
          ∧ (∀ s, P.side i = some s →
              s = ⟨moduloVertex P.vertexes i, moduloVertex P.vertexes (i + 1)⟩
                ∧ s.start ∈ P.vertexes ∧ s.end_ ∈ P.vertexes)
          ∧ (P.side i = none
              ↔ (moduloVertex P.vertexes i).equals
                  (moduloVertex P.vertexes (i + 1)) = true))
    ∧ (∀ (t : Triangle) (i : ℤ), t.vertexes.length = 3 →
        t.vertex i ∈ t.vertexes
          ∧ moduloVertex t.vertexes i ∈ t.vertexes
          ∧ moduloVertex t.vertexes (i + 1) ∈ t.vertexes
          ∧ (∀ s, t.side i = some s →
              s = ⟨moduloVertex t.vertexes i, moduloVertex t.vertexes (i + 1)⟩
                ∧ s.start ∈ t.vertexes ∧ s.end_ ∈ t.vertexes)
          ∧ (t.side i = none
              ↔ (moduloVertex t.vertexes i).equals
                  (moduloVertex t.vertexes (i + 1)) = true)) := by
  refine ⟨fun i n hn => modulo_nonneg_lt i n hn, fun P i hP => ?_, fun t i ht => ?_⟩
  · have hn : (0 : ℤ) < (P.vertexes.length : ℤ) := by omega
    have b1 := modulo_nonneg_lt i (P.vertexes.length : ℤ) hn
    have b2 := modulo_nonneg_lt (i + 1) (P.vertexes.length : ℤ) hn
    have k1 : (modulo i (P.vertexes.length : ℤ)).toNat < P.vertexes.length := by omega
    have k2 : (modulo (i + 1) (P.vertexes.length : ℤ)).toNat < P.vertexes.length := by
      omega
    have m1 : moduloVertex P.vertexes i ∈ P.vertexes := getD_mem_of_lt _ _ k1
    have m2 : moduloVertex P.vertexes (i + 1) ∈ P.vertexes := getD_mem_of_lt _ _ k2
    refine ⟨getD_mem_of_lt _ _ k1, m1, m2, fun s hs => ?_, ?_⟩
    · have hse := (lineSegment_mk_cases (moduloVertex P.vertexes i)
        (moduloVertex P.vertexes (i + 1))).2 s (by rw [← polygon_side_eq_mk]; exact hs)
      exact ⟨hse, by rw [hse]; exact m1, by rw [hse]; exact m2⟩
    · rw [polygon_side_eq_mk]
      exact (lineSegment_mk_cases _ _).1
  · have b1 := modulo_nonneg_lt i 3 (by norm_num)
    have b2 := modulo_nonneg_lt (i + 1) 3 (by norm_num)
    have k1 : (modulo i 3).toNat < t.vertexes.length := by omega
    have k2 : (modulo (i + 1) 3).toNat < t.vertexes.length := by omega
    have k1' : (modulo i (t.vertexes.length : ℤ)).toNat < t.vertexes.length := by
      rw [ht]; push_cast; omega
    have k2' : (modulo (i + 1) (t.vertexes.length : ℤ)).toNat < t.vertexes.length := by
      rw [ht]; push_cast; omega
    have m1 : moduloVertex t.vertexes i ∈ t.vertexes := getD_mem_of_lt _ _ k1'
    have m2 : moduloVertex t.vertexes (i + 1) ∈ t.vertexes := getD_mem_of_lt _ _ k2'
    refine ⟨getD_mem_of_lt _ _ k1, m1, m2, fun s hs => ?_, ?_⟩
    · have hse := (lineSegment_mk_cases (moduloVertex t.vertexes i)
        (moduloVertex t.vertexes (i + 1))).2 s
        (by rw [← triangle_side_eq_mk t i ht]; exact hs)
      exact ⟨hse, by rw [hse]; exact m1, by rw [hse]; exact m2⟩
    · rw [triangle_side_eq_mk t i ht]
      exact (lineSegment_mk_cases _ _).1

unseal Rat.add Rat.sub Rat.mul Rat.inv in
/-- **C10 witness.** -/
theorem C10_modulo_indexed_accessors_witness :
    (0 : ℤ) < 3 ∧ 0 ≤ modulo (-7) 3 ∧ modulo (-7) 3 < 3
      ∧ (3 ≤ ([⟨0,3⟩, ⟨0,0⟩, ⟨4,0⟩] : List Point).length)
      ∧ Polygon.vertex ⟨[⟨0,3⟩, ⟨0,0⟩, ⟨4,0⟩]⟩ (-7) ∈
          ([⟨0,3⟩, ⟨0,0⟩, ⟨4,0⟩] : List Point)
      ∧ Polygon.side ⟨[⟨0,3⟩, ⟨0,0⟩, ⟨4,0⟩]⟩ (-7) = some ⟨⟨4,0⟩, ⟨0,3⟩⟩
      ∧ (⟨⟨4,0⟩, ⟨0,3⟩⟩ : LineSegment).start ∈ ([⟨0,3⟩, ⟨0,0⟩, ⟨4,0⟩] : List Point) := by
  have h := C10_modulo_indexed_accessors
  refine ⟨by norm_num, (h.1 (-7) 3 (by norm_num)).1, (h.1 (-7) 3 (by norm_num)).2,
    by decide, (h.2.1 ⟨[⟨0,3⟩, ⟨0,0⟩, ⟨4,0⟩]⟩ (-7) (by decide)).1, by decide,
    ((h.2.1 ⟨[⟨0,3⟩, ⟨0,0⟩, ⟨4,0⟩]⟩ (-7) (by decide)).2.2.2.1 ⟨⟨4,0⟩, ⟨0,3⟩⟩
      (by decide)).2.1⟩

/-- A vertex list accepted by the triangle constructor although two of its
vertexes are epsilon-equal: the collinearity test `|times| > EPS` sees the
cross product `9e-8`, which exceeds `EPS = 1e-8`, while the points `(0,0)`
and `(0, 9e-9)` are epsilon-equal coordinatewise. -/
def epsSideTriInput : List Point := [⟨0, 0⟩, ⟨0, 9 / 1000000000⟩, ⟨10, 0⟩]

/-- The stored (normalized) form of `epsSideTriInput`. -/
def epsSideTri : Triangle := ⟨[⟨0, 0⟩, ⟨10, 0⟩, ⟨0, 9 / 1000000000⟩]⟩

/-- A vertex list accepted by the polygon constructor although two adjacent
vertexes are epsilon-equal (every checked triple has `|times| > EPS`). -/
def epsSidePolyInput : List Point :=
  [⟨0, 0⟩, ⟨0, 9 / 1000000000⟩, ⟨10, 10⟩, ⟨10, -10⟩]

/-- The stored (normalized) form of `epsSidePolyInput`. -/
def epsSidePoly : Polygon :=
  ⟨[⟨10, 10⟩, ⟨0, 9 / 1000000000⟩, ⟨0, 0⟩, ⟨10, -10⟩]⟩

unseal Rat.add Rat.sub Rat.mul Rat.inv in
/-- **C10 counterexample.**  `side i` is *not* total on constructed shapes:
the triangle constructor accepts `epsSideTriInput` (its collinearity test
sees the cross product `9e-8 > EPS`), yet the stored vertexes `2` and `0`
are epsilon-equal, so `side 2` hands two epsilon-equal points to the
`LineSegment` constructor, which throws (`none`) instead of returning the
joining side; likewise for the polygon `epsSidePoly` at `side 1`. -/
theorem C10_side_throws_counterexample :
    Triangle.mk? epsSideTriInput = some epsSideTri
    ∧ epsSideTri.side 2 = none
    ∧ (Point.mk 0 0).equals ⟨0, 9 / 1000000000⟩ = true
    ∧ Polygon.mk? epsSidePolyInput = some epsSidePoly
    ∧ epsSidePoly.side 1 = none := by
  decide

/-- **C9.**  For all points `p` and `q`, `p.add(q).subtract(q).equals(p)`:
the componentwise round trip returns to a point epsilon-equal to `p`
(coordinates being modelled as exact rationals). -/
theorem C9_add_subtract_roundtrip (p q : Point) :
    ((p.add q).subtract q).equals p = true := by
  have hx : p.x + q.x - q.x - p.x = 0 := by ring
  have hy : p.y + q.y - q.y - p.y = 0 := by ring
  simp only [Point.add, Point.subtract, Point.equals, qeq, hx, hy, abs_zero,
    Bool.and_eq_true, decide_eq_true_eq]
  norm_num [EPS]

/-- **C5.**  Constructing a `Line` or `LineSegment` from two epsilon-equal
points, or a `Triangle` from three collinear points, fails at construction
time and produces no shape object (the smart constructors return `none`). -/
theorem C5_degenerate_construction_fails :
    (∀ p q : Point, p.equals q = true →
        LineSegment.mk? p q = none ∧ Line.mk? p q = none)
    ∧ (∀ a b c : Point, b.times a c = 0 → Triangle.mk? [a, b, c] = none) := by
  constructor
  · intro p q h
    constructor <;> simp [LineSegment.mk?, Line.mk?, h]
  · intro a b c h
    simp [Triangle.mk?, Triangle.isValid, isNonZero, List.getD, h, EPS]

unseal Rat.add Rat.sub Rat.mul Rat.inv in
/-- **C5 witness.** -/
theorem C5_degenerate_construction_fails_witness :
    ((Point.mk 0 0).equals ⟨0, 0⟩ = true
      ∧ LineSegment.mk? ⟨0, 0⟩ ⟨0, 0⟩ = none ∧ Line.mk? ⟨0, 0⟩ ⟨0, 0⟩ = none)
    ∧ ((Point.mk 1 1).times ⟨0, 0⟩ ⟨2, 2⟩ = 0
      ∧ Triangle.mk? [⟨0, 0⟩, ⟨1, 1⟩, ⟨2, 2⟩] = none) := by
  have h := C5_degenerate_construction_fails
  exact ⟨⟨by decide, h.1 _ _ (by decide)⟩, ⟨by decide, h.2 _ _ _ (by decide)⟩⟩

/-- The caller-supplied counter-clockwise unit square of the C4 analysis. -/
def unitSquareInput : List Point := [⟨0, 0⟩, ⟨1, 0⟩, ⟨1, 1⟩, ⟨0, 1⟩]

unseal Rat.add Rat.sub Rat.mul Rat.inv in
/-- **C4** (the code violates the claim).  `normalize` is **not** idempotent:
on the unit square the first pass starts the list at `(0,1)`, but because
`Utils.gt(x, y)` is `x + EPS > y` — true for equal arguments — the
top-left scan of the second pass moves on to the *other* top vertex
`(1,1)`, rotating the list again. -/
theorem C4_normalize_not_idempotent :
    normalize unitSquareInput = [⟨0, 1⟩, ⟨0, 0⟩, ⟨1, 0⟩, ⟨1, 1⟩]
    ∧ normalize (normalize unitSquareInput) = [⟨1, 1⟩, ⟨0, 1⟩, ⟨0, 0⟩, ⟨1, 0⟩]
    ∧ normalize (normalize unitSquareInput) ≠ normalize unitSquareInput := by
  decide

/-- The 4-vertex list whose wrap-around triple `(v3, v0, v1)` is collinear:
`Polygon.isValid` only checks the triples centred at `v1 .. v(n-1)`. -/
def wrapTripleInput : List Point := [⟨0, 0⟩, ⟨1, 1⟩, ⟨2, 0⟩, ⟨-1, -1⟩]

unseal Rat.add Rat.sub Rat.mul Rat.inv in
/-- **C7** (the code violates the claim).  The polygon constructor accepts
`wrapTripleInput` although the cyclic triple `(v3, v0, v1)` is collinear;
after normalization the *stored* list even begins with three consecutive
collinear vertexes `(1,1), (0,0), (-1,-1)`. -/
theorem C7_consecutive_collinear_constructed :
    Polygon.mk? wrapTripleInput = some ⟨[⟨1, 1⟩, ⟨0, 0⟩, ⟨-1, -1⟩, ⟨2, 0⟩]⟩
    ∧ isZero ((Point.mk 0 0).times ⟨1, 1⟩ ⟨-1, -1⟩) = true := by
  decide

/-- The unit square at the origin, as stored by the rectangle constructor. -/
def unitSquareRect : Rectangle := ⟨normalize [⟨0, 0⟩, ⟨1, 0⟩, ⟨1, 1⟩, ⟨0, 1⟩]⟩

/-- A congruent unit square ten units to the right. -/
def farSquareRect : Rectangle := ⟨normalize [⟨10, 0⟩, ⟨11, 0⟩, ⟨11, 1⟩, ⟨10, 1⟩]⟩

unseal Rat.add Rat.sub Rat.mul Rat.inv in
/-- **C3** (the code violates the claim).  For two plainly disjoint valid
rectangles, `relationToRectangle` reaches the `// TODO` after the
equality/containment cases and falls through without a `return` (the call
returns normally, but with `undefined` instead of an outcome — embedded as
`some none`), although its own documentation promises a
`disjoint`/`intersect` classification. -/
theorem C3_relationToRectangle_falls_through :
    unitSquareRect.relationToRectangle farSquareRect = some none
    ∧ Rectangle.isValidPoints unitSquareRect.vertexes
    ∧ Rectangle.isValidPoints farSquareRect.vertexes := by
  have hv1 : unitSquareRect.vertexes = [⟨0, 1⟩, ⟨0, 0⟩, ⟨1, 0⟩, ⟨1, 1⟩] := by decide
  have hv2 : farSquareRect.vertexes = [⟨10, 1⟩, ⟨10, 0⟩, ⟨11, 0⟩, ⟨11, 1⟩] := by decide
  refine ⟨by decide, ?_, ?_⟩
  · rw [Rectangle.isValidPoints, hv1]
    refine ⟨rfl, by decide, by decide, ?_, ?_, ?_⟩ <;>
      · simp only [List.getD, Point.distanceTo, eqR, List.getElem?_cons_zero,
          List.getElem?_cons_succ, Option.getD_some]
        norm_num [EPS]
  · rw [Rectangle.isValidPoints, hv2]
    refine ⟨rfl, by decide, by decide, ?_, ?_, ?_⟩ <;>
      · simp only [List.getD, Point.distanceTo, eqR, List.getElem?_cons_zero,
          List.getElem?_cons_succ, Option.getD_some]
        norm_num [EPS]

/-- `times` vanishes when its first argument coincides with the base
point. -/
theorem times_self_left (p0 p2 : Point) : p0.times p0 p2 = 0 := by
  simp [Point.times]

/-- `times` vanishes when its two arguments coincide. -/
theorem times_diag (p0 p1 : Point) : p0.times p1 p1 = 0 := by
  simp [Point.times]; ring

/-- The start point of a line satisfies its implicit equation. -/
theorem implicit_eq_start (l : Line) :
    l.coeffA * l.start.x + l.coeffB * l.start.y + l.coeffC = 0 := by
  simp [Line.coeffA, Line.coeffB, Line.coeffC]; ring

/-- The end point of a line satisfies its implicit equation. -/
theorem implicit_eq_end (l : Line) :
    l.coeffA * l.end_.x + l.coeffB * l.end_.y + l.coeffC = 0 := by
  simp [Line.coeffA, Line.coeffB, Line.coeffC]; ring

/-- The intersection determinant is the cross product of the two direction
vectors. -/
theorem det_eq_cross (l1 l2 : Line) :
    l1.coeffA * l2.coeffB - l2.coeffA * l1.coeffB
      = (l1.end_.subtract l1.start).cross (l2.end_.subtract l2.start) := by
  simp [Line.coeffA, Line.coeffB, Point.subtract, Point.cross]; ring

/-- When the epsilon determinant test fails, the line intersection is the
unique solution of the two implicit equations. -/
theorem line_intersection_point_unique (l1 l2 : Line)
    (h : qeq (l1.coeffA * l2.coeffB) (l2.coeffA * l1.coeffB) = false) :
    ∃ pt : Point, l1.intersectionPointWith l2 = Sum.inl pt
      ∧ l1.coeffA * pt.x + l1.coeffB * pt.y + l1.coeffC = 0
      ∧ l2.coeffA * pt.x + l2.coeffB * pt.y + l2.coeffC = 0
      ∧ ∀ q : Point, l1.coeffA * q.x + l1.coeffB * q.y + l1.coeffC = 0 →
          l2.coeffA * q.x + l2.coeffB * q.y + l2.coeffC = 0 → q = pt := by
  have hne : ¬ (|l1.coeffA * l2.coeffB - l2.coeffA * l1.coeffB| ≤ EPS) := by
    simpa [qeq] using h
  have hd : l1.coeffA * l2.coeffB - l2.coeffA * l1.coeffB ≠ 0 := by
    intro h0
    exact hne (by rw [h0, abs_zero]; norm_num [EPS])
  refine ⟨⟨(l1.coeffB * l2.coeffC - l2.coeffB * l1.coeffC)
              / (l1.coeffA * l2.coeffB - l2.coeffA * l1.coeffB),
           (l2.coeffA * l1.coeffC - l1.coeffA * l2.coeffC)
              / (l1.coeffA * l2.coeffB - l2.coeffA * l1.coeffB)⟩,
    by simp [Line.intersectionPointWith, h], ?_, ?_, ?_⟩
  · field_simp
    ring
  · field_simp
    ring
  · intro q hq1 hq2
    obtain ⟨qx, qy⟩ := q
    simp only [Point.mk.injEq]
    constructor
    · field_simp
      linear_combination l2.coeffB * hq1 - l1.coeffB * hq2
    · field_simp
      linear_combination l1.coeffA * hq2 - l2.coeffA * hq1

/-- When both endpoints of the second line lie exactly on the first line,
`Line.intersectionPointWith` answers `'collinear'`. -/
theorem line_intersection_collinear_exact (l1 l2 : Line)
    (h1 : (l1.end_.subtract l1.start).cross (l2.start.subtract l1.start) = 0)
    (h2 : (l1.end_.subtract l1.start).cross (l2.end_.subtract l1.start) = 0) :
    l1.intersectionPointWith l2 = Sum.inr "collinear" := by
  have e1 : (l1.end_.x - l1.start.x) * (l2.start.y - l1.start.y)
      - (l1.end_.y - l1.start.y) * (l2.start.x - l1.start.x) = 0 := by
    simpa [Point.subtract, Point.cross] using h1
  have e2 : (l1.end_.x - l1.start.x) * (l2.end_.y - l1.start.y)
      - (l1.end_.y - l1.start.y) * (l2.end_.x - l1.start.x) = 0 := by
    simpa [Point.subtract, Point.cross] using h2
  have d0 : l1.coeffA * l2.coeffB = l2.coeffA * l1.coeffB := by
    simp only [Line.coeffA, Line.coeffB]
    linear_combination e2 - e1
  have d1 : l1.coeffA * l2.coeffC = l2.coeffA * l1.coeffC := by
    simp only [Line.coeffA, Line.coeffC]
    linear_combination l2.end_.y * e1 - l2.start.y * e2
  have d2 : l1.coeffB * l2.coeffC = l2.coeffB * l1.coeffC := by
    simp only [Line.coeffB, Line.coeffC]
    linear_combination l2.start.x * e2 - l2.end_.x * e1
  have hq : ∀ x y : ℚ, x = y → qeq x y = true := by
    intro x y hxy
    simp [qeq, hxy, EPS]
  simp [Line.intersectionPointWith, hq _ _ d0, hq _ _ d1, hq _ _ d2]

/-- Fuzzy bounding-box comparison holds as soon as the two extrema straddle
a shared value. -/
theorem qgeq_max_min {a b c d q : ℚ} (h1 : a = q ∨ b = q) (h2 : c = q ∨ d = q) :
    qgeq (max a b) (min c d) = true := by
  simp only [qgeq, decide_eq_true_eq]
  have hE : (0 : ℚ) ≤ EPS := by norm_num [EPS]
  have hmax : q ≤ max a b := by
    rcases h1 with h | h <;> rw [← h]
    exacts [le_max_left _ _, le_max_right _ _]
  have hmin : min c d ≤ q := by
    rcases h2 with h | h <;> rw [← h]
    exacts [min_le_left _ _, min_le_right _ _]
  linarith

/-- Fuzzy bounding-box comparison, `leq` direction. -/
theorem qleq_min_max {a b c d q : ℚ} (h1 : a = q ∨ b = q) (h2 : c = q ∨ d = q) :
    qleq (min a b) (max c d) = true := by
  simp only [qleq, decide_eq_true_eq]
  have hE : (0 : ℚ) ≤ EPS := by norm_num [EPS]
  have hmin : min a b ≤ q := by
    rcases h1 with h | h <;> rw [← h]
    exacts [min_le_left _ _, min_le_right _ _]
  have hmax : q ≤ max c d := by
    rcases h2 with h | h <;> rw [← h]
    exacts [le_max_left _ _, le_max_right _ _]
  linarith

/-- Two segments sharing an endpoint always pass `intersectsWith`: the
bounding boxes overlap at the shared point and each `times` product has a
vanishing factor. -/
theorem sharedEndpoint_intersectsWith (s1 s2 : LineSegment) (q : Point)
    (h1 : s1.start = q ∨ s1.end_ = q) (h2 : s2.start = q ∨ s2.end_ = q) :
    s1.intersectsWith s2 = true := by
  have h1x : s1.start.x = q.x ∨ s1.end_.x = q.x := by
    rcases h1 with h | h <;> [left; right] <;> rw [h]
  have h1y : s1.start.y = q.y ∨ s1.end_.y = q.y := by
    rcases h1 with h | h <;> [left; right] <;> rw [h]
  have h2x : s2.start.x = q.x ∨ s2.end_.x = q.x := by
    rcases h2 with h | h <;> [left; right] <;> rw [h]
  have h2y : s2.start.y = q.y ∨ s2.end_.y = q.y := by
    rcases h2 with h | h <;> [left; right] <;> rw [h]
  have hE : (0 : ℚ) ≤ EPS := by norm_num [EPS]
  simp only [LineSegment.intersectsWith, Bool.and_eq_true]
  refine ⟨⟨⟨⟨⟨qgeq_max_min h1x h2x, qleq_min_max h1x h2x⟩,
    qgeq_max_min h1y h2y⟩, qleq_min_max h1y h2y⟩, ?_⟩, ?_⟩ <;>
    simp only [isNonPositive, decide_eq_true_eq]
  · rcases h1 with h | h <;> rcases h2 with h' | h'
    · rw [h', ← h, times_self_left, zero_mul]; exact hE
    · rw [h', ← h, times_self_left, mul_zero]; exact hE
    · rw [h', ← h, times_diag, zero_mul]; exact hE
    · rw [h', ← h, times_diag, mul_zero]; exact hE
  · rcases h1 with h | h <;> rcases h2 with h' | h'
    · rw [h, ← h', times_self_left, zero_mul]; exact hE
    · rw [h, ← h', times_diag, zero_mul]; exact hE
    · rw [h, ← h', times_self_left, mul_zero]; exact hE
    · rw [h, ← h', times_diag, mul_zero]; exact hE

/-- A shared endpoint lies on both segments per `isOnLineSegment`. -/
theorem endpoint_isOnLineSegment (s : LineSegment) (q : Point)
    (h : s.start = q ∨ s.end_ = q) : q.isOnLineSegment s = true := by
  rcases h with h | h <;> rw [← h] <;>
    simp [Point.isOnLineSegment, Point.subtract, Point.cross, qsign, isZero,
      EPS, mul_comm]

/-- The crossing rule of the ray-casting loop, per side (Point.js lines
663-677): sides parallel to the horizontal ray are skipped; a side with an
endpoint exactly on the ray is counted only when the other endpoint is
below it; otherwise the segment intersection test decides. -/
def crossesRay (ray : LineSegment) (s : LineSegment) : Bool :=
  !(qeq s.start.y s.end_.y)
    && (if s.start.isOnLineSegment ray then decide (s.start.y > s.end_.y)
        else if s.end_.isOnLineSegment ray then decide (s.end_.y > s.start.y)
        else s.intersectsWith ray)

/-- The number of counted crossings between a polygon's sides and the
horizontal ray from `p` to `(NEGATIVE_INF, p.y)`. -/
def countRayCrossings (p : Point) (ss : List LineSegment) : ℕ :=
  ss.countP (crossesRay (horizontalRay p))

/-- The ray-casting loop answers `'on'` exactly when the probe lies on some
side. -/
theorem relationToPolygonLoop_on_iff (p : Point) (ray : LineSegment)
    (sides : List LineSegment) (c : ℕ) :
    relationToPolygonLoop p ray sides c = "on"
      ↔ ∃ s ∈ sides, p.isOnLineSegment s = true := by
  induction sides generalizing c with
  | nil =>
    simp only [relationToPolygonLoop, List.not_mem_nil, false_and, exists_false,
      iff_false]
    split_ifs <;> decide
  | cons s rest ih =>
    simp only [relationToPolygonLoop]
    split_ifs with h1 h2 h3 h4 h5 h6 h7 <;> simp_all

/-- When the probe lies on no side, the ray-casting loop returns the parity
verdict of the running counter plus the counted crossings. -/
theorem relationToPolygonLoop_count (p : Point) (ray : LineSegment)
    (sides : List LineSegment) (c : ℕ)
    (h : ∀ s ∈ sides, p.isOnLineSegment s = false) :
    relationToPolygonLoop p ray sides c =
      (if (c + sides.countP (crossesRay ray)) % 2 = 1 then "inside"
       else "outside") := by
  induction sides generalizing c with
  | nil => simp [relationToPolygonLoop]
  | cons s rest ih =>
    have hs : p.isOnLineSegment s = false := h s (List.mem_cons_self s rest)
    have hrest : ∀ t ∈ rest, p.isOnLineSegment t = false := by
      intro t ht; exact h t (List.mem_cons_of_mem s ht)
    have harith : c + 1 + List.countP (crossesRay ray) rest
        = c + (List.countP (crossesRay ray) rest + 1) := by omega
    cases h2 : qeq s.start.y s.end_.y with
    | true =>
      have hcr : crossesRay ray s = false := by simp [crossesRay, h2]
      simp [relationToPolygonLoop, hs, h2, hcr, ih _ hrest]
    | false =>
      cases h3 : s.start.isOnLineSegment ray with
      | true =>
        by_cases h4 : s.start.y > s.end_.y
        · have hcr : crossesRay ray s = true := by simp [crossesRay, h2, h3, h4]
          simp [relationToPolygonLoop, hs, h2, h3, h4, hcr, ih _ hrest, harith]
        · have hcr : crossesRay ray s = false := by simp [crossesRay, h2, h3, h4]
          simp [relationToPolygonLoop, hs, h2, h3, h4, hcr, ih _ hrest]
      | false =>
        cases h5 : s.end_.isOnLineSegment ray with
        | true =>
          by_cases h6 : s.end_.y > s.start.y
          · have hcr : crossesRay ray s = true := by
              simp [crossesRay, h2, h3, h5, h6]
            simp [relationToPolygonLoop, hs, h2, h3, h5, h6, hcr, ih _ hrest,
              harith]
          · have hcr : crossesRay ray s = false := by
              simp [crossesRay, h2, h3, h5, h6]
            simp [relationToPolygonLoop, hs, h2, h3, h5, h6, hcr, ih _ hrest]
        | false =>
          cases h7 : s.intersectsWith ray with
          | true =>
            have hcr : crossesRay ray s = true := by
              simp [crossesRay, h2, h3, h5, h7]
            simp [relationToPolygonLoop, hs, h2, h3, h5, h7, hcr, ih _ hrest,
              harith]
          | false =>
            have hcr : crossesRay ray s = false := by
              simp [crossesRay, h2, h3, h5, h7]
            simp [relationToPolygonLoop, hs, h2, h3, h5, h7, hcr, ih _ hrest]

/-- The unit square polygon as stored by the constructor (normalized form
of the input `[(0,0),(1,0),(1,1),(0,1)]`). -/
def unitSquarePoly : Polygon := ⟨[⟨0, 1⟩, ⟨0, 0⟩, ⟨1, 0⟩, ⟨1, 1⟩]⟩

unseal Rat.add Rat.sub Rat.mul Rat.inv in
/-- **C1 counterexample.**  `relationToPolygon` does *not* classify every
probe against every constructed polygon: the polygon constructor accepts
`epsSidePolyInput` (every checked triple has `|times| > EPS`), yet two
adjacent stored vertexes are epsilon-equal, so the `polygon.sides()` call
made before the ray-casting loop throws and `relationToPolygon` produces no
verdict at all (`none`) — in particular not `'on'`, although the probe
`(0,0)` is itself a vertex of the polygon and so lies on its boundary. -/
theorem C1_sides_throw_counterexample :
    Polygon.mk? epsSidePolyInput = some epsSidePoly
    ∧ (Point.mk 0 0) ∈ epsSidePoly.vertexes
    ∧ epsSidePoly.sides = none
    ∧ (Point.mk 0 0).relationToPolygon epsSidePoly = none := by
  decide

unseal Rat.add Rat.sub Rat.mul Rat.inv in
/-- **C1 (amended).**  For every constructed polygon, `relationToPolygon`
first builds the side list; when some side constructor throws (two adjacent
stored vertexes epsilon-equal) the exception propagates and there is no
verdict (`none`).  Otherwise it returns `'on'` iff the probe lies on some
side segment, and else `'inside'` exactly when the number of counted
crossings between the sides and the horizontal ray from the probe to
`(-infinityMagnitude, p.y)` is odd (`'outside'` when even), where
horizontal sides are skipped and a side with an endpoint on the ray counts
only when its other endpoint is below; on the unit square, the centre
probes `'inside'`, `(10,10)` probes `'outside'`, and an edge midpoint
probes `'on'`. -/
theorem C1_relationToPolygon_ray_parity :
    (∀ (vs : List Point) (P : Polygon) (p : Point) (ss : List LineSegment),
      Polygon.mk? vs = some P → P.sides = some ss →
      ((p.relationToPolygon P = some "on")
          ↔ ∃ s ∈ ss, p.isOnLineSegment s = true)
      ∧ ((∀ s ∈ ss, p.isOnLineSegment s = false) →
          ((p.relationToPolygon P = some "inside")
              ↔ countRayCrossings p ss % 2 = 1)
          ∧ ((p.relationToPolygon P = some "outside")
              ↔ countRayCrossings p ss % 2 = 0)))
    ∧ (∀ (P : Polygon) (p : Point), P.sides = none →
        p.relationToPolygon P = none)
    ∧ (Polygon.mk? [⟨0, 0⟩, ⟨1, 0⟩, ⟨1, 1⟩, ⟨0, 1⟩] = some unitSquarePoly
      ∧ (Point.mk (1/2) (1/2)).relationToPolygon unitSquarePoly = some "inside"
      ∧ (Point.mk 10 10).relationToPolygon unitSquarePoly = some "outside"
      ∧ (Point.mk (1/2) 0).relationToPolygon unitSquarePoly = some "on") := by
  refine ⟨?_, ?_, by decide, by decide, by decide, by decide⟩
  · intro vs P p ss _ hss
    have hrel : p.relationToPolygon P
        = some (relationToPolygonLoop p (horizontalRay p) ss 0) := by
      simp [Point.relationToPolygon, hss]
    constructor
    · rw [hrel, Option.some_inj]
      exact relationToPolygonLoop_on_iff p (horizontalRay p) ss 0
    · intro hno
      have hc := relationToPolygonLoop_count p (horizontalRay p) ss 0 hno
      have hc' : p.relationToPolygon P =
          some (if countRayCrossings p ss % 2 = 1 then "inside" else "outside") := by
        rw [hrel, Option.some_inj]
        simpa [countRayCrossings] using hc
      rcases Nat.mod_two_eq_zero_or_one (countRayCrossings p ss) with hpar | hpar <;>
        rw [hc', hpar] <;> norm_num <;> decide
  · intro P p hnone
    simp [Point.relationToPolygon, hnone]

/-- The side list of the stored unit square. -/
def unitSquareSides : List LineSegment :=
  [⟨⟨0, 1⟩, ⟨0, 0⟩⟩, ⟨⟨0, 0⟩, ⟨1, 0⟩⟩, ⟨⟨1, 0⟩, ⟨1, 1⟩⟩, ⟨⟨1, 1⟩, ⟨0, 1⟩⟩]

unseal Rat.add Rat.sub Rat.mul Rat.inv in
/-- **C1 witness.** -/
theorem C1_relationToPolygon_ray_parity_witness :
    Polygon.mk? [⟨0, 0⟩, ⟨1, 0⟩, ⟨1, 1⟩, ⟨0, 1⟩] = some unitSquarePoly
    ∧ unitSquarePoly.sides = some unitSquareSides
    ∧ (unitSquareSides.all
        (fun s => !((Point.mk (1/2) (1/2)).isOnLineSegment s)) = true)
    ∧ countRayCrossings ⟨1/2, 1/2⟩ unitSquareSides % 2 = 1 := by
  have h := C1_relationToPolygon_ray_parity.1 [⟨0, 0⟩, ⟨1, 0⟩, ⟨1, 1⟩, ⟨0, 1⟩]
    unitSquarePoly ⟨1/2, 1/2⟩ unitSquareSides (by decide) (by decide)
  exact ⟨by decide, by decide, by decide, ((h.2 (by decide)).1).mp (by decide)⟩

/-- The triangle/convex side loop answers `'on'` only when the probe lies on
some side segment. -/
theorem sideRelationLoop_on_imp (p : Point) (ref : LineSegment → String)
    (sides : List LineSegment) :
    sideRelationLoop p ref sides = "on" →
      ∃ s ∈ sides, p.isOnLineSegment s = true := by
  induction sides with
  | nil => intro h; simp [sideRelationLoop] at h
  | cons s rest ih =>
    simp only [sideRelationLoop]
    split_ifs with h1 h2
    · exact fun _ => ⟨s, List.mem_cons_self s rest, h1⟩
    · intro h; exact absurd h (by decide)
    · intro h
      obtain ⟨t, ht, hon⟩ := ih h
      exact ⟨t, List.mem_cons_of_mem s ht, hon⟩

/-- When the probe is on no side segment, the triangle/convex side loop
classifies `'inside'` exactly by agreement with the reference relation on
every side. -/
theorem sideRelationLoop_classify (p : Point) (ref : LineSegment → String)
    (sides : List LineSegment)
    (h : ∀ s ∈ sides, p.isOnLineSegment s = false) :
    (sideRelationLoop p ref sides = "inside"
      ↔ ∀ s ∈ sides, p.relationToLine s.line = ref s)
    ∧ (sideRelationLoop p ref sides = "outside"
      ↔ ¬ ∀ s ∈ sides, p.relationToLine s.line = ref s) := by
  induction sides with
  | nil => simp [sideRelationLoop]
  | cons s rest ih =>
    have hs := h s (List.mem_cons_self s rest)
    have hrest : ∀ t ∈ rest, p.isOnLineSegment t = false := by
      intro t ht; exact h t (List.mem_cons_of_mem s ht)
    obtain ⟨ih1, ih2⟩ := ih hrest
    simp only [sideRelationLoop, hs, Bool.false_eq_true, if_false]
    by_cases hr : p.relationToLine s.line = ref s
    · simp [hr, ih1, ih2, List.forall_mem_cons]
    · simp [hr, List.forall_mem_cons]

/-- The non-axis-parallel rectangle loop answers `'on'` only when the probe
lies on some side segment (the sides being `Line` objects, the segment is
the one joining their `start`/`end` endpoints). -/
theorem rectSideLoop_on_imp (p : Point) (sides : List Line) :
    rectSideLoop p sides = "on"
      → ∃ s ∈ sides, p.isOnLineSegment ⟨s.start, s.end_⟩ = true := by
  induction sides with
  | nil => intro h; simp [rectSideLoop] at h
  | cons s rest ih =>
    simp only [rectSideLoop]
    split_ifs with h1 h2 h3
    · intro _
      refine ⟨s, List.mem_cons_self s rest, ?_⟩
      simp only [Point.isOnLineSegment, Bool.and_eq_true]
      simp only [Bool.and_eq_true] at h2
      exact ⟨⟨h1, by simpa using h2.1⟩, by simpa using h2.2⟩
    · intro h; exact absurd h (by decide)
    · intro h; exact absurd h (by decide)
    · intro h
      obtain ⟨t, ht, hon⟩ := ih h
      exact ⟨t, List.mem_cons_of_mem s ht, hon⟩

/-- When the probe is within epsilon of no side's line, the rectangle loop
classifies `'inside'` exactly when the probe is strictly on the negative
cross-product side of every side. -/
theorem rectSideLoop_classify (p : Point) (sides : List Line)
    (h : ∀ s ∈ sides,
      isZero ((s.end_.subtract s.start).cross (p.subtract s.start)) = false) :
    (rectSideLoop p sides = "inside"
      ↔ ∀ s ∈ sides, (s.end_.subtract s.start).cross (p.subtract s.start) < 0)
    ∧ (rectSideLoop p sides = "outside"
      ↔ ¬ ∀ s ∈ sides, (s.end_.subtract s.start).cross (p.subtract s.start) < 0) := by
  induction sides with
  | nil => simp [rectSideLoop]
  | cons s rest ih =>
    have hs := h s (List.mem_cons_self s rest)
    have hrest : ∀ t ∈ rest,
        isZero ((t.end_.subtract t.start).cross (p.subtract t.start)) = false := by
      intro t ht; exact h t (List.mem_cons_of_mem s ht)
    obtain ⟨ih1, ih2⟩ := ih hrest
    have hnz : (s.end_.subtract s.start).cross (p.subtract s.start) ≠ 0 := by
      intro h0
      rw [isZero, h0] at hs
      simp [EPS] at hs
    simp only [rectSideLoop, hs, Bool.false_eq_true, if_false]
    by_cases hr : (s.end_.subtract s.start).cross (p.subtract s.start) > 0
    · have hnlt : ¬ (s.end_.subtract s.start).cross (p.subtract s.start) < 0 := by
        linarith
      simp [hr, hnlt, List.forall_mem_cons]
    · have hlt : (s.end_.subtract s.start).cross (p.subtract s.start) < 0 :=
        lt_of_le_of_ne (not_lt.mp hr) hnz
      simp [hr, hlt, ih1, ih2, List.forall_mem_cons]

/-- A long axis-parallel rectangle (1e9 × 1), as the constructor stores it. -/
def bigRect : Rectangle :=
  ⟨normalize [⟨0, 0⟩, ⟨1000000000, 0⟩, ⟨1000000000, 1⟩, ⟨0, 1⟩]⟩

/-- A probe within epsilon of the top boundary line of `bigRect`, but far
(cross product 9) from every side segment. -/
def topBandProbe : Point := ⟨500000000, 1 + 9 / 1000000000⟩

/-- The side list of `bigRect` (its `Line` constructors all succeed). -/
def bigRectSides : List Line :=
  [⟨⟨0, 1⟩, ⟨0, 0⟩⟩, ⟨⟨0, 0⟩, ⟨1000000000, 0⟩⟩,
   ⟨⟨1000000000, 0⟩, ⟨1000000000, 1⟩⟩, ⟨⟨1000000000, 1⟩, ⟨0, 1⟩⟩]

unseal Rat.add Rat.sub Rat.mul Rat.inv in
/-- **C8 counterexample.**  For the valid axis-parallel rectangle `bigRect`,
the probe `topBandProbe` is classified `'on'` by `relationToRectangle`
although it lies on none of the four side segments (per the library's own
`isOnLineSegment`): the axis-parallel fast path only compares the probe's
coordinates to the boundary coordinates, and `eq(p.y, top)` holds while the
cross product against the top side is `9`, far beyond epsilon. -/
theorem C8_on_without_side_counterexample :
    topBandProbe.relationToRectangle bigRect = some "on"
    ∧ bigRect.sides = some bigRectSides
    ∧ bigRectSides.all
        (fun s => !(topBandProbe.isOnLineSegment ⟨s.start, s.end_⟩)) = true
    ∧ bigRect.isParallelToAxis = true
    ∧ Rectangle.isValidPoints bigRect.vertexes := by
  refine ⟨by decide, by decide, by decide, by decide, ?_⟩
  have hv : bigRect.vertexes
      = [⟨0, 1⟩, ⟨0, 0⟩, ⟨1000000000, 0⟩, ⟨1000000000, 1⟩] := by decide
  rw [Rectangle.isValidPoints, hv]
  refine ⟨rfl, by decide, by decide, ?_, ?_, ?_⟩ <;>
    · simp only [List.getD, Point.distanceTo, eqR, List.getElem?_cons_zero,
        List.getElem?_cons_succ, Option.getD_some]
      norm_num [EPS]

set_option maxHeartbeats 1600000 in
/-- **C8 (amended).**  The point-vs-shape queries behave as follows.  For a
triangle whose `sides()` call succeeds, `'on'` is answered only if the
probe lies on a side segment, and when the probe is on no side segment the
verdict is `'inside'` exactly when the probe's side-of-line relation
agrees, on every side, with that of the triangle's vertex centroid against
side 0 (`'outside'` otherwise); when a side constructor throws (two
adjacent stored vertexes epsilon-equal) the query produces no verdict
(`none`).  For a convex polygon with at least 3 vertexes the same holds
with the arithmetic mean of the vertexes as reference point, compared side
by side, again with no verdict when `sides()` throws.  For an axis-parallel
rectangle the query instead uses the epsilon-relaxed bounding box and
constructs no sides: `'on'` exactly when the probe is inside the relaxed
box with one coordinate epsilon-equal to a boundary coordinate (which need
not coincide with lying on a side segment), `'inside'` when inside the box
with no such equality, `'outside'` otherwise.  For a non-axis-parallel
rectangle whose `sides()` call succeeds, `'on'` is answered only if the
probe lies on a side segment, and when the probe is within epsilon of no
side's line the verdict is `'inside'` exactly when the probe is on the
negative cross-product side of all four sides; when `sides()` throws there
is again no verdict. -/
theorem C8_point_shape_relations :
    (∀ (t : Triangle) (p : Point) (ss : List LineSegment), t.sides = some ss →
      (p.relationToTriangle t = some "on"
          → ∃ s ∈ ss, p.isOnLineSegment s = true)
      ∧ ((∀ s ∈ ss, p.isOnLineSegment s = false) →
          ((p.relationToTriangle t = some "inside") ↔ ∀ s ∈ ss,
            p.relationToLine s.line
              = t.center.relationToLine (ss.headD default).line)
          ∧ ((p.relationToTriangle t = some "outside") ↔ ¬ ∀ s ∈ ss,
            p.relationToLine s.line
              = t.center.relationToLine (ss.headD default).line)))
    ∧ (∀ (t : Triangle) (p : Point), t.sides = none →
        p.relationToTriangle t = none)
    ∧ (∀ (P : Polygon) (p : Point) (ss : List LineSegment),
        3 ≤ P.size → P.sides = some ss →
      ∃ res : String, p.relationToConvex P = some res
      ∧ (res = "on" → ∃ s ∈ ss, p.isOnLineSegment s = true)
      ∧ ((∀ s ∈ ss, p.isOnLineSegment s = false) →
          ((res = "inside") ↔ ∀ s ∈ ss,
            p.relationToLine s.line = (vertexMean P).relationToLine s.line)
          ∧ ((res = "outside") ↔ ¬ ∀ s ∈ ss,
            p.relationToLine s.line = (vertexMean P).relationToLine s.line)))
    ∧ (∀ (P : Polygon) (p : Point), 3 ≤ P.size → P.sides = none →
        p.relationToConvex P = none)
    ∧ (∀ (r : Rectangle) (p : Point), r.isParallelToAxis = true →
      ((p.relationToRectangle r = some "on")
        ↔ ((qgeq p.x r.left && qleq p.x r.right
              && qgeq p.y (min r.bottom r.top)
              && qleq p.y (max r.bottom r.top)) = true
            ∧ (qeq p.x r.left || qeq p.x r.right
              || qeq p.y r.top || qeq p.y r.bottom) = true))
      ∧ ((p.relationToRectangle r = some "inside")
        ↔ ((qgeq p.x r.left && qleq p.x r.right
              && qgeq p.y (min r.bottom r.top)
              && qleq p.y (max r.bottom r.top)) = true
            ∧ (qeq p.x r.left || qeq p.x r.right
              || qeq p.y r.top || qeq p.y r.bottom) = false))
      ∧ ((p.relationToRectangle r = some "outside")
        ↔ (qgeq p.x r.left && qleq p.x r.right
              && qgeq p.y (min r.bottom r.top)
              && qleq p.y (max r.bottom r.top)) = false))
    ∧ (∀ (r : Rectangle) (p : Point) (ss : List Line),
        r.isParallelToAxis = false → r.sides = some ss →
      (p.relationToRectangle r = some "on"
          → ∃ s ∈ ss, p.isOnLineSegment ⟨s.start, s.end_⟩ = true)
      ∧ ((∀ s ∈ ss,
            isZero ((s.end_.subtract s.start).cross (p.subtract s.start)) = false) →
          ((p.relationToRectangle r = some "inside") ↔ ∀ s ∈ ss,
            (s.end_.subtract s.start).cross (p.subtract s.start) < 0)
          ∧ ((p.relationToRectangle r = some "outside") ↔ ¬ ∀ s ∈ ss,
            (s.end_.subtract s.start).cross (p.subtract s.start) < 0)))
    ∧ (∀ (r : Rectangle) (p : Point), r.isParallelToAxis = false →
        r.sides = none → p.relationToRectangle r = none) := by
  refine ⟨fun t p ss hss => ⟨?_, ?_⟩,
    fun t p h => by simp [Point.relationToTriangle, h],
    fun P p ss hP hss => ?_,
    fun P p hP h => ?_,
    fun r p hpar => ?_,
    fun r p ss hpar hss => ⟨?_, ?_⟩,
    fun r p hpar h => by simp [Point.relationToRectangle, hpar, h]⟩
  · intro hon
    have hrel : p.relationToTriangle t = some (sideRelationLoop p
        (fun _ => t.center.relationToLine (ss.headD default).line) ss) := by
      simp [Point.relationToTriangle, hss]
    rw [hrel, Option.some_inj] at hon
    exact sideRelationLoop_on_imp p
      (fun _ => t.center.relationToLine (ss.headD default).line) ss hon
  · intro hno
    have hrel : p.relationToTriangle t = some (sideRelationLoop p
        (fun _ => t.center.relationToLine (ss.headD default).line) ss) := by
      simp [Point.relationToTriangle, hss]
    rw [hrel]
    have hcls := sideRelationLoop_classify p
      (fun _ => t.center.relationToLine (ss.headD default).line) ss hno
    exact ⟨by rw [Option.some_inj]; exact hcls.1,
      by rw [Option.some_inj]; exact hcls.2⟩
  · refine ⟨sideRelationLoop p
        (fun s => (vertexMean P).relationToLine s.line) ss, ?_, ?_, ?_⟩
    · simp only [Point.relationToConvex]
      rw [if_neg (Nat.not_lt.mpr hP)]
      simp [hss]
    · exact sideRelationLoop_on_imp p
        (fun s => (vertexMean P).relationToLine s.line) ss
    · exact fun hno => sideRelationLoop_classify p
        (fun s => (vertexMean P).relationToLine s.line) ss hno
  · simp only [Point.relationToConvex]
    rw [if_neg (Nat.not_lt.mpr hP)]
    simp [h]
  · have hdef : p.relationToRectangle r =
        some (if (qgeq p.x r.left && qleq p.x r.right
              && qgeq p.y (min r.bottom r.top)
              && qleq p.y (max r.bottom r.top)) = true then
          (if (qeq p.x r.left || qeq p.x r.right
              || qeq p.y r.top || qeq p.y r.bottom) = true then "on" else "inside")
         else "outside") := by
      simp [Point.relationToRectangle, hpar]
    rcases hb1 : (qgeq p.x r.left && qleq p.x r.right
        && qgeq p.y (min r.bottom r.top) && qleq p.y (max r.bottom r.top)) with _ | _ <;>
      rcases hb2 : (qeq p.x r.left || qeq p.x r.right
          || qeq p.y r.top || qeq p.y r.bottom) with _ | _ <;>
        simp [hdef, hb1, hb2]
  · intro hon
    have hrel : p.relationToRectangle r = some (rectSideLoop p ss) := by
      simp [Point.relationToRectangle, hpar, hss]
    rw [hrel, Option.some_inj] at hon
    exact rectSideLoop_on_imp p ss hon
  · intro hno
    have hrel : p.relationToRectangle r = some (rectSideLoop p ss) := by
      simp [Point.relationToRectangle, hpar, hss]
    rw [hrel]
    have hcls := rectSideLoop_classify p ss hno
    exact ⟨by rw [Option.some_inj]; exact hcls.1,
      by rw [Option.some_inj]; exact hcls.2⟩

/-- A rotated (non-axis-parallel) unit-diagonal square used by the C8
witness, in the clockwise order the rectangle side loop expects. -/
def diamondRect : Rectangle := ⟨[⟨1, 2⟩, ⟨2, 1⟩, ⟨1, 0⟩, ⟨0, 1⟩]⟩

/-- The triangle `(0,0), (4,0), (0,3)` as stored by the constructor. -/
def rightTriangle : Triangle := ⟨[⟨0, 3⟩, ⟨0, 0⟩, ⟨4, 0⟩]⟩

unseal Rat.add Rat.sub Rat.mul Rat.inv in
/-- **C8 witness.** -/
theorem C8_point_shape_relations_witness :
    (Point.mk 1 1).relationToTriangle rightTriangle = some "inside"
    ∧ (Point.mk (1/2) (1/2)).relationToConvex unitSquarePoly = some "inside"
    ∧ (Point.mk (1/2) (1/2)).relationToRectangle unitSquareRect = some "inside"
    ∧ (Point.mk 1 1).relationToRectangle diamondRect = some "inside" := by
  have h := C8_point_shape_relations
  refine ⟨?_, ?_, ?_, ?_⟩
  · exact (((h.1 rightTriangle ⟨1, 1⟩
      [⟨⟨0, 3⟩, ⟨0, 0⟩⟩, ⟨⟨0, 0⟩, ⟨4, 0⟩⟩, ⟨⟨4, 0⟩, ⟨0, 3⟩⟩]
      (by decide)).2 (by decide)).1).mpr (by decide)
  · obtain ⟨res, hres, -, hcls⟩ := h.2.2.1 unitSquarePoly ⟨1/2, 1/2⟩
      unitSquareSides (by decide) (by decide)
    rw [hres, ((hcls (by decide)).1).mpr (by decide)]
  · exact ((h.2.2.2.2.1 unitSquareRect ⟨1/2, 1/2⟩ (by decide)).2.1).mpr
      ⟨by decide, by decide⟩
  · exact (((h.2.2.2.2.2.1 diamondRect ⟨1, 1⟩
      [⟨⟨1, 2⟩, ⟨2, 1⟩⟩, ⟨⟨2, 1⟩, ⟨1, 0⟩⟩, ⟨⟨1, 0⟩, ⟨0, 1⟩⟩, ⟨⟨0, 1⟩, ⟨1, 2⟩⟩]
      (by decide) (by decide)).2 (by decide)).1).mpr (by decide)

/-- First segment of the C2 counterexample: the unit interval on the
x-axis. -/
def segA : LineSegment := ⟨⟨0, 0⟩, ⟨1, 0⟩⟩

/-- Second segment of the C2 counterexample: its collinear continuation. -/
def segB : LineSegment := ⟨⟨1, 0⟩, ⟨2, 0⟩⟩

/-- A long horizontal segment lifted by `5e-9` (within epsilon of `segD`). -/
def segC : LineSegment := ⟨⟨0, 5 / 1000000000⟩, ⟨1000000000, 5 / 1000000000⟩⟩

/-- A long horizontal segment on the x-axis. -/
def segD : LineSegment := ⟨⟨0, 0⟩, ⟨1000000000, 0⟩⟩

unseal Rat.add Rat.sub Rat.mul Rat.inv in
/-- **C2 counterexample.**  `segA` and `segB` are valid segments sharing
exactly one endpoint, yet `relationTo` answers `'collinear'`, not
`'intersect'` (the parallel/collinear branch precedes the intersection
test).  Moreover `segC`/`segD` are parallel and not collinear (per the
library's own `isOnLine`), yet `relationTo` answers `'equal'`, not
`'parallel'`, because their endpoints are epsilon-equal pairwise. -/
theorem C2_shared_endpoint_counterexample :
    (LineSegment.mk? ⟨0, 0⟩ ⟨1, 0⟩ = some segA
      ∧ LineSegment.mk? ⟨1, 0⟩ ⟨2, 0⟩ = some segB
      ∧ segA.end_ = segB.start
      ∧ segA.start ≠ segB.start ∧ segA.start ≠ segB.end_ ∧ segA.end_ ≠ segB.end_
      ∧ segA.relationTo segB = "collinear"
      ∧ segA.relationTo segB ≠ "intersect")
    ∧ (segC.isParallelWith segD = true
      ∧ segC.start.isOnLine segD.line = false
      ∧ segC.relationTo segD = "equal"
      ∧ segC.relationTo segD ≠ "parallel") := by
  decide

set_option maxHeartbeats 1600000 in
/-- **C2 (amended).**  For every pair of valid segments: sharing an endpoint
(exactly) rules out `'disjoint'`; if in addition the segments are neither
epsilon-equal nor epsilon-parallel, `relationTo` answers `'intersect'` and
`intersectionPointWith` returns the shared point; two parallel segments that
are neither epsilon-equal nor collinear give `'parallel'`; and two exactly
collinear segments whose sorted endpoint ranges are strictly separated (in
the `compareTo` order the code uses) give `'disjoint'` from
`intersectionPointWith`. -/
theorem C2_segment_relations :
    (∀ (s1 s2 : LineSegment) (q : Point),
        (s1.start = q ∨ s1.end_ = q) → (s2.start = q ∨ s2.end_ = q) →
        s1.relationTo s2 ≠ "disjoint")
    ∧ (∀ (s1 s2 : LineSegment) (q : Point),
        (s1.start = q ∨ s1.end_ = q) → (s2.start = q ∨ s2.end_ = q) →
        s1.equals s2 = false → s1.isParallelWith s2 = false →
        s1.relationTo s2 = "intersect"
          ∧ s1.intersectionPointWith s2 = Sum.inl q)
    ∧ (∀ s1 s2 : LineSegment,
        s1.equals s2 = false → s1.isParallelWith s2 = true →
        s1.start.isOnLine s2.line = false → s1.relationTo s2 = "parallel")
    ∧ (∀ s1 s2 : LineSegment,
        (s1.end_.subtract s1.start).cross (s2.start.subtract s1.start) = 0 →
        (s1.end_.subtract s1.start).cross (s2.end_.subtract s1.start) = 0 →
        ((sortPair s1.start s1.end_).2.compareTo (sortPair s2.start s2.end_).1 < 0
          ∨ (sortPair s2.start s2.end_).2.compareTo (sortPair s1.start s1.end_).1 < 0) →
        s1.intersectionPointWith s2 = Sum.inr "disjoint") := by
  have hpar_det : ∀ s1 s2 : LineSegment, s1.isParallelWith s2 = false →
      qeq (s1.line.coeffA * s2.line.coeffB) (s2.line.coeffA * s1.line.coeffB) = false := by
    intro s1 s2 hp
    simp only [LineSegment.isParallelWith] at hp
    simp only [qeq, det_eq_cross]
    simpa [isZero] using hp
  refine ⟨?_, ?_, ?_, ?_⟩
  · intro s1 s2 q h1 h2
    have hi := sharedEndpoint_intersectsWith s1 s2 q h1 h2
    simp only [LineSegment.relationTo]
    split_ifs <;> simp_all
  · intro s1 s2 q h1 h2 he hp
    have hi := sharedEndpoint_intersectsWith s1 s2 q h1 h2
    have hdet := hpar_det s1 s2 hp
    obtain ⟨pt, hpt, hpe1, hpe2, huniq⟩ :=
      line_intersection_point_unique s1.line s2.line hdet
    have hq1 : s1.line.coeffA * q.x + s1.line.coeffB * q.y + s1.line.coeffC = 0 := by
      rcases h1 with h | h <;> rw [← h]
      exacts [implicit_eq_start s1.line, implicit_eq_end s1.line]
    have hq2 : s2.line.coeffA * q.x + s2.line.coeffB * q.y + s2.line.coeffC = 0 := by
      rcases h2 with h | h <;> rw [← h]
      exacts [implicit_eq_start s2.line, implicit_eq_end s2.line]
    have hqpt : q = pt := huniq q hq1 hq2
    rw [← hqpt] at hpt
    have hc1 : s1.containsPoint q = true := endpoint_isOnLineSegment s1 q h1
    have hc2 : s2.containsPoint q = true := endpoint_isOnLineSegment s2 q h2
    constructor
    · simp [LineSegment.relationTo, he, hp, hi]
    · rw [LineSegment.intersectionPointWith, hpt]
      simp [intersectionPointWithAux, hc1, hc2]
  · intro s1 s2 he hp ho
    simp [LineSegment.relationTo, he, hp, ho]
  · intro s1 s2 hc1 hc2 hsep
    have hline := line_intersection_collinear_exact s1.line s2.line hc1 hc2
    have hcond : ((sortPair s1.start s1.end_).2.compareTo (sortPair s2.start s2.end_).1 < 0
        || (sortPair s2.start s2.end_).2.compareTo (sortPair s1.start s1.end_).1 < 0) = true := by
      rcases hsep with h | h <;> simp [h]
    rw [LineSegment.intersectionPointWith, hline]
    simp only [intersectionPointWithAux, hcond]
    simp

unseal Rat.add Rat.sub Rat.mul Rat.inv in
/-- **C2 witness.** -/
theorem C2_segment_relations_witness :
    (LineSegment.relationTo ⟨⟨0, 0⟩, ⟨1, 0⟩⟩ ⟨⟨1, 0⟩, ⟨1, 1⟩⟩ ≠ "disjoint")
    ∧ (LineSegment.relationTo ⟨⟨0, 0⟩, ⟨1, 0⟩⟩ ⟨⟨0, 0⟩, ⟨0, 1⟩⟩ = "intersect"
        ∧ LineSegment.intersectionPointWith ⟨⟨0, 0⟩, ⟨1, 0⟩⟩ ⟨⟨0, 0⟩, ⟨0, 1⟩⟩
            = Sum.inl ⟨0, 0⟩)
    ∧ (LineSegment.relationTo ⟨⟨0, 0⟩, ⟨1, 0⟩⟩ ⟨⟨0, 1⟩, ⟨1, 1⟩⟩ = "parallel")
    ∧ (LineSegment.intersectionPointWith ⟨⟨0, 0⟩, ⟨1, 0⟩⟩ ⟨⟨2, 0⟩, ⟨3, 0⟩⟩
        = Sum.inr "disjoint") := by
  have h := C2_segment_relations
  exact ⟨h.1 ⟨⟨0, 0⟩, ⟨1, 0⟩⟩ ⟨⟨1, 0⟩, ⟨1, 1⟩⟩ ⟨1, 0⟩ (Or.inr rfl) (Or.inl rfl),
    h.2.1 ⟨⟨0, 0⟩, ⟨1, 0⟩⟩ ⟨⟨0, 0⟩, ⟨0, 1⟩⟩ ⟨0, 0⟩ (Or.inl rfl) (Or.inl rfl)
      (by decide) (by decide),
    h.2.2.1 ⟨⟨0, 0⟩, ⟨1, 0⟩⟩ ⟨⟨0, 1⟩, ⟨1, 1⟩⟩ (by decide) (by decide) (by decide),
    h.2.2.2 ⟨⟨0, 0⟩, ⟨1, 0⟩⟩ ⟨⟨2, 0⟩, ⟨3, 0⟩⟩ (by decide) (by decide)
      (Or.inl (by decide))⟩

/-- The first line of the C6 counterexample: the x-axis. -/
def xAxisLine : Line := ⟨⟨0, 0⟩, ⟨1, 0⟩⟩

/-- The second line of the C6 counterexample: a long horizontal line at
height `1e-9`, i.e. within epsilon of the x-axis but not on it exactly. -/
def nearAxisLine : Line := ⟨⟨0, 1 / 1000000000⟩, ⟨1000, 1 / 1000000000⟩⟩

unseal Rat.add Rat.sub Rat.mul Rat.inv in
/-- **C6 counterexample.**  Two valid lines with an epsilon-zero determinant
where the start point of the second line lies on the first line (per the
library's own `isOnLine`), yet `intersectionPointWith` answers `'parallel'`,
not `'collinear'`: the coefficient-proportionality test `eq(b1·c2, b2·c1)`
scales differently from the point-on-line cross product, so the two
disambiguations disagree under the epsilon tolerance. -/
theorem C6_collinear_test_differs :
    Line.mk? ⟨0, 0⟩ ⟨1, 0⟩ = some xAxisLine
    ∧ Line.mk? ⟨0, 1 / 1000000000⟩ ⟨1000, 1 / 1000000000⟩ = some nearAxisLine
    ∧ qeq (xAxisLine.coeffA * nearAxisLine.coeffB)
          (nearAxisLine.coeffA * xAxisLine.coeffB) = true
    ∧ nearAxisLine.start.isOnLine xAxisLine = true
    ∧ xAxisLine.intersectionPointWith nearAxisLine = Sum.inr "parallel" := by
  decide

/-- **C6 (amended).**  `intersectionPointWith` computes the 2×2 determinant
of the implicit equations: when the determinant is not within epsilon of
zero it returns the unique point solving both implicit equations; when it
is within epsilon of zero it returns `'collinear'` exactly when both
coefficient cross-products are within epsilon (`eq(a1·c2, a2·c1)` and
`eq(b1·c2, b2·c1)`), and `'parallel'` otherwise — the disambiguation is this
proportionality test, which agrees with "one line's start point lies on the
other line" only in exact arithmetic. -/
theorem C6_determinant_intersection :
    (∀ l1 l2 : Line,
      qeq (l1.coeffA * l2.coeffB) (l2.coeffA * l1.coeffB) = false →
      ∃ pt : Point, l1.intersectionPointWith l2 = Sum.inl pt
        ∧ l1.coeffA * pt.x + l1.coeffB * pt.y + l1.coeffC = 0
        ∧ l2.coeffA * pt.x + l2.coeffB * pt.y + l2.coeffC = 0
        ∧ ∀ q : Point, l1.coeffA * q.x + l1.coeffB * q.y + l1.coeffC = 0 →
            l2.coeffA * q.x + l2.coeffB * q.y + l2.coeffC = 0 → q = pt)
    ∧ (∀ l1 l2 : Line,
      qeq (l1.coeffA * l2.coeffB) (l2.coeffA * l1.coeffB) = true →
      (l1.intersectionPointWith l2 = Sum.inr "collinear"
        ↔ (qeq (l1.coeffA * l2.coeffC) (l2.coeffA * l1.coeffC) = true
            ∧ qeq (l1.coeffB * l2.coeffC) (l2.coeffB * l1.coeffC) = true))
      ∧ (l1.intersectionPointWith l2 = Sum.inr "collinear"
          ∨ l1.intersectionPointWith l2 = Sum.inr "parallel")) := by
  constructor
  · intro l1 l2 h
    have hne : ¬ (|l1.coeffA * l2.coeffB - l2.coeffA * l1.coeffB| ≤ EPS) := by
      simpa [qeq] using h
    have hd : l1.coeffA * l2.coeffB - l2.coeffA * l1.coeffB ≠ 0 := by
      intro h0
      exact hne (by rw [h0, abs_zero]; norm_num [EPS])
    refine ⟨⟨(l1.coeffB * l2.coeffC - l2.coeffB * l1.coeffC)
                / (l1.coeffA * l2.coeffB - l2.coeffA * l1.coeffB),
             (l2.coeffA * l1.coeffC - l1.coeffA * l2.coeffC)
                / (l1.coeffA * l2.coeffB - l2.coeffA * l1.coeffB)⟩,
      by simp [Line.intersectionPointWith, h], ?_, ?_, ?_⟩
    · field_simp
      ring
    · field_simp
      ring
    · intro q hq1 hq2
      obtain ⟨qx, qy⟩ := q
      simp only [Point.mk.injEq]
      constructor
      · field_simp
        linear_combination l2.coeffB * hq1 - l1.coeffB * hq2
      · field_simp
        linear_combination l1.coeffA * hq2 - l2.coeffA * hq1
  · intro l1 l2 h
    simp only [Line.intersectionPointWith, h, if_true]
    rcases hb : qeq (l1.coeffA * l2.coeffC) (l2.coeffA * l1.coeffC) with _ | _ <;>
      rcases hc : qeq (l1.coeffB * l2.coeffC) (l2.coeffB * l1.coeffC) with _ | _ <;>
        simp [hb, hc]

unseal Rat.add Rat.sub Rat.mul Rat.inv in
/-- **C6 witness.** -/
theorem C6_determinant_intersection_witness :
    (qeq ((Line.mk ⟨0, 0⟩ ⟨1, 0⟩).coeffA * (Line.mk ⟨0, 0⟩ ⟨0, 1⟩).coeffB)
         ((Line.mk ⟨0, 0⟩ ⟨0, 1⟩).coeffA * (Line.mk ⟨0, 0⟩ ⟨1, 0⟩).coeffB) = false)
    ∧ (∃ pt : Point,
        (Line.mk ⟨0, 0⟩ ⟨1, 0⟩).intersectionPointWith ⟨⟨0, 0⟩, ⟨0, 1⟩⟩ = Sum.inl pt)
    ∧ (qeq ((Line.mk ⟨0, 0⟩ ⟨1, 0⟩).coeffA * (Line.mk ⟨0, 1⟩ ⟨1, 1⟩).coeffB)
           ((Line.mk ⟨0, 1⟩ ⟨1, 1⟩).coeffA * (Line.mk ⟨0, 0⟩ ⟨1, 0⟩).coeffB) = true)
    ∧ ((Line.mk ⟨0, 0⟩ ⟨1, 0⟩).intersectionPointWith ⟨⟨0, 1⟩, ⟨1, 1⟩⟩ = Sum.inr "collinear"
        ∨ (Line.mk ⟨0, 0⟩ ⟨1, 0⟩).intersectionPointWith ⟨⟨0, 1⟩, ⟨1, 1⟩⟩ = Sum.inr "parallel") := by
  have h := C6_determinant_intersection
  refine ⟨by decide, ?_, by decide, (h.2 ⟨⟨0, 0⟩, ⟨1, 0⟩⟩ ⟨⟨0, 1⟩, ⟨1, 1⟩⟩ (by decide)).2⟩
  obtain ⟨pt, hpt, -, -, -⟩ := h.1 ⟨⟨0, 0⟩, ⟨1, 0⟩⟩ ⟨⟨0, 0⟩, ⟨0, 1⟩⟩ (by decide)
  exact ⟨pt, hpt⟩

end JsGeom
